import Mathlib

/-!
Shallow embedding of `src/lib.rs` of the `ooml` repository: a nom-based
parser for a small indentation-styled configuration language.

Modelling conventions:
* Rust `&str` input is modelled as `List Char` (the inputs of interest are
  ASCII).  A nom parser `Fn(&str) -> IResult<&str, A>` becomes
  `Input → Option (A × Input)`; `some (a, rest)` is `Ok((rest, a))`, `none`
  is `Err(Error(..))`.  No parser in the source produces `Failure` (all are
  `complete` combinators), so a single failure value suffices and `alt`
  backtracks on it.
* `f64` is modelled by `F64`: either the exact decimal rational denoted by
  the literal (as a fraction in lowest terms, `Dec`), or the `nan` / `inf`
  exceptional values that `nom::number::complete::double` also recognises.
  IEEE-754 rounding is not modelled; no theorem below depends on a value
  that is inexact in binary.
* Rust `HashMap` built by `collect()` on a `(key, value)` iterator is
  modelled by an insertion-ordered association list where a later duplicate
  key overwrites the earlier binding (`collectMap`); hash iteration order is
  not observable in any statement below because all compared maps are given
  literally.
* The mutual recursion `value → collection → array/object → value` descends
  through a fuel parameter; every cycle through `value` consumes at least
  one character, so the fuel `input.length + 1` used by `parse` is never
  exhausted on the way to an answer.
* `parse` in the source first runs
  `nom_indent::indent(input, "<assertion>").expect(..)` and discards the
  result (it is only printed with `dbg!`).  That call does not contribute to
  the returned value and is not part of this embedding; whether it can fail
  (and hence panic via `expect`) depends on the external `nom_indent` crate,
  whose source is not part of this repository.
-/

namespace Ooml

abbrev Input := List Char

/-- A nom parser over string input: `some (a, rest)` on success. -/
abbrev Parser (α : Type) := Input → Option (α × Input)

/-- nom `tag`: match a literal, return it, consume it. -/
def tagP (s : Input) : Parser Input := fun input =>
  if s.isPrefixOf input then some (s, input.drop s.length) else none

/-- nom `character::complete::char`. -/
def charP (c : Char) : Parser Char := fun input =>
  match input with
  | [] => none
  | x :: xs => if x = c then some (c, xs) else none

/-- nom `branch::alt` restricted to two alternatives; nested right for more. -/
def altP (p q : Parser α) : Parser α := fun input =>
  match p input with
  | some r => some r
  | none => q input

/-- nom `combinator::map`. -/
def mapP (p : Parser α) (f : α → β) : Parser β := fun input =>
  match p input with
  | some (a, r) => some (f a, r)
  | none => none

/-- nom `combinator::opt`: never fails, backtracks on failure. -/
def optP (p : Parser α) : Parser (Option α) := fun input =>
  match p input with
  | some (a, r) => some (some a, r)
  | none => some (none, input)

/-- nom `combinator::eof`. -/
def eofP : Parser Unit := fun input =>
  match input with
  | [] => some ((), [])
  | _ => none

/-- nom `sequence::pair` (also the underlying shape of `tuple`). -/
def pairP (p : Parser α) (q : Parser β) : Parser (α × β) := fun input =>
  match p input with
  | none => none
  | some (a, r) =>
    match q r with
    | none => none
    | some (b, r2) => some ((a, b), r2)

/-- nom `sequence::preceded`. -/
def preceded (p : Parser α) (q : Parser β) : Parser β :=
  mapP (pairP p q) (fun x => x.2)

/-- nom `sequence::terminated`. -/
def terminated (p : Parser α) (q : Parser β) : Parser α :=
  mapP (pairP p q) (fun x => x.1)

/-- nom `sequence::separated_pair`. -/
def separatedPair (p : Parser α) (sep : Parser β) (q : Parser γ) : Parser (α × γ) :=
  mapP (pairP p (pairP sep q)) (fun x => (x.1, x.2.2))

/-- nom `combinator::recognize`: return the consumed slice. -/
def recognizeP (p : Parser α) : Parser Input := fun input =>
  match p input with
  | none => none
  | some (_, r) => some (input.take (input.length - r.length), r)

/-- Loop of nom `multi::many1`.  The fuel only bounds the iteration count;
it is never exhausted because each iteration strictly consumes input (the
`else none` branch is nom's `ErrorKind::Many1` infinite-loop guard for a
non-consuming element). -/
def many1Loop (p : Parser α) : Nat → List α → Parser (List α)
  | 0, _ => fun _ => none
  | n + 1, acc => fun input =>
    match p input with
    | none => some (acc.reverse, input)
    | some (a, r) =>
      if r.length < input.length then many1Loop p n (a :: acc) r else none

/-- nom `multi::many1`. -/
def many1P (p : Parser α) : Parser (List α) := fun input =>
  match p input with
  | none => none
  | some (a, r) => many1Loop p (input.length + 1) [a] r

/-- Loop of nom `multi::separated_list1`: a failing element (or separator)
ends the list with the separator unconsumed; a separator+element pair that
consumes nothing is nom's `ErrorKind::SeparatedList` error. -/
def sepList1Loop (sep : Parser β) (p : Parser α) : Nat → List α → Parser (List α)
  | 0, _ => fun _ => none
  | n + 1, acc => fun input =>
    match sep input with
    | none => some (acc.reverse, input)
    | some (_, r1) =>
      match p r1 with
      | none => some (acc.reverse, input)
      | some (a, r2) =>
        if r2.length < input.length then sepList1Loop sep p n (a :: acc) r2 else none

/-- nom `multi::separated_list1`. -/
def sepList1 (sep : Parser β) (p : Parser α) : Parser (List α) := fun input =>
  match p input with
  | none => none
  | some (a, r) => sepList1Loop sep p (input.length + 1) [a] r

/-- nom `character::complete::alphanumeric1` (Unicode and ASCII alphanumeric
agree on the ASCII inputs considered here): longest nonempty alphanumeric run. -/
def takeWhile1P (f : Char → Bool) : Parser Input := fun input =>
  let t := input.takeWhile f
  if t.isEmpty then none else some (t, input.drop t.length)

def alphanumeric1 : Parser Input := takeWhile1P (fun c => c.isAlphanum)

/-- nom `character::complete::digit1`. -/
def digit1 : Parser Input := takeWhile1P (fun c => c.isDigit)

/-- `fn boolean`: `alt((value(true, tag("true")), value(false, tag("false"))))`. -/
def boolean : Parser Bool :=
  altP (mapP (tagP (("true").data)) (fun _ => true))
    (mapP (tagP (("false").data)) (fun _ => false))

/-- Decimal digits to a natural number. -/
def digitsToNat (ds : Input) : Nat :=
  ds.foldl (fun n c => 10 * n + (c.toNat - 48)) 0

/-- An exact rational in lowest terms (`num` carries the sign, `den > 0`),
used to model the finite `f64` values: every decimal literal denotes such a
rational exactly. -/
structure Dec where
  num : Int
  den : Nat
deriving DecidableEq

/-- Model of an `f64` produced by `nom::number::complete::double`: the exact
decimal rational of the recognised literal, or the `nan` / `inf` exceptions. -/
inductive F64 where
  | finite : Dec → F64
  | nan : F64
  | inf : F64

/-- Optional sign; `true` means negative. -/
def signP : Parser Bool := fun input =>
  match optP (altP (charP ('+')) (charP ('-'))) input with
  | some (some c, r) => some (c == '-', r)
  | some (none, r) => some (false, r)
  | none => none

/-- Mantissa of nom's `recognize_float`: `digit1 ('.' digit1?)?` or `'.' digit1`;
returns (integer digits, fraction digits). -/
def mantissa : Parser (Input × Input) :=
  altP
    (mapP (pairP digit1 (optP (pairP (charP ('.')) (optP digit1))))
      (fun x =>
        match x.2 with
        | some (_, some f) => (x.1, f)
        | _ => (x.1, [])))
    (mapP (pairP (charP ('.')) digit1) (fun x => ([], x.2)))

/-- Optional exponent of nom's `recognize_float`: `(e|E) sign? digit1`;
returns (negative?, magnitude), defaulting to (false, 0). -/
def expPart : Parser (Bool × Nat) := fun input =>
  match optP (pairP (altP (charP ('e')) (charP ('E'))) (pairP signP digit1)) input with
  | some (some x, r) => some ((x.2.1, digitsToNat x.2.2), r)
  | some (none, r) => some ((false, 0), r)
  | none => none

/-- Exact rational value of a recognised decimal float literal, in lowest
terms: `±(digits of ip ++ fp) * 10^(±emag) / 10^(length of fp)`.  (IEEE-754
`-0.0` compares equal to `0.0`, so collapsing the sign of zero is faithful.) -/
def floatVal (neg : Bool) (ip fp : Input) (eneg : Bool) (emag : Nat) : Dec :=
  let m : Nat := digitsToNat (ip ++ fp)
  let n : Nat := if eneg then m else m * 10 ^ emag
  let d : Nat := if eneg then 10 ^ fp.length * 10 ^ emag else 10 ^ fp.length
  let g : Nat := Nat.gcd n d
  Dec.mk (if neg then -((n / g : Nat) : Int) else ((n / g : Nat) : Int)) (d / g)

/-- The ordinary-float branch of `double`. -/
def floatP : Parser Dec := fun input =>
  match pairP signP (pairP mantissa expPart) input with
  | some ((neg, ((ip, fp), (eneg, emag))), r) =>
    some (floatVal neg ip fp eneg emag, r)
  | none => none

/-- Case-insensitive `tag` (nom `tag_no_case`), used by `double` for nan/inf. -/
def tagNoCase (s : Input) : Parser Input := fun input =>
  let pre := input.take s.length
  if (pre.length == s.length) && ((pre.zip s).all (fun x => x.1.toLower == x.2.toLower)) then
    some (pre, input.drop s.length)
  else none

/-- `fn number`: `nom::number::complete::double` — a recognised float, or the
case-insensitive `nan` / `inf` exceptions (an `infinity` alternative exists in
nom but is shadowed by `inf` matching first). -/
def number : Parser F64 :=
  altP (mapP floatP F64.finite)
    (altP (mapP (tagNoCase (("nan").data)) (fun _ => F64.nan))
      (mapP (tagNoCase (("inf").data)) (fun _ => F64.inf)))

/-- `fn string`: `preceded(char('\"'), terminated(tag("a string!"), char('\"')))`.
The body is the literal stub `tag("a string!")` (marked TODO in the source). -/
def string : Parser Input :=
  preceded (charP ('"')) (terminated (tagP (("a string!").data)) (charP ('"')))

/-- `fn key`: `recognize(many1(alt((alphanumeric1, tag("_"), tag(" ")))))`. -/
def key : Parser Input :=
  recognizeP (many1P (altP alphanumeric1 (altP (tagP (("_").data)) (tagP ((" ").data)))))

/-- The `Value` enum of `src/lib.rs` (see the `HashMap` modelling note above). -/
inductive Value where
  | string : Input → Value
  | number : F64 → Value
  | bool : Bool → Value
  | object : List (Input × Value) → Value
  | array : List Value → Value

/-- Insert a binding as `HashMap::insert` does: a duplicate key overwrites. -/
def assocSet : List (Input × Value) → Input → Value → List (Input × Value)
  | [], k, v => [(k, v)]
  | (k0, v0) :: rest, k, v =>
    if k0 = k then (k0, v) :: rest else (k0, v0) :: assocSet rest k v

/-- `tuple_vec.into_iter().collect::<HashMap<_, _>>()`. -/
def collectMap (l : List (Input × Value)) : List (Input × Value) :=
  l.foldl (fun m kv => assocSet m kv.1 kv.2) []

/-- `fn array` with the value parser abstracted:
`many1(preceded(tag("- "), terminated(value, newline)))`. -/
def arrayOf (val : Parser Value) : Parser (List Value) :=
  many1P (preceded (tagP (("- ").data)) (terminated val (charP ('\n'))))

/-- The `key_value` local of `fn object`:
`separated_pair(key, alt((tag(": "), tag(":\n    "))), value)`. -/
def keyValueOf (val : Parser Value) : Parser (Input × Value) :=
  separatedPair key (altP (tagP ((": ").data)) (tagP ((":\n    ").data))) val

/-- `fn object` with the value parser abstracted:
`map(separated_list1(newline, key_value), collect)`. -/
def objectOf (val : Parser Value) : Parser (List (Input × Value)) :=
  mapP (sepList1 (charP ('\n')) (keyValueOf val)) collectMap

/-- `fn collection` with the value parser abstracted:
`alt((map(array, Value::Array), map(object, Value::Object)))`. -/
def collectionOf (val : Parser Value) : Parser Value :=
  altP (mapP (arrayOf val) Value.array) (mapP (objectOf val) Value.object)

/-- `fn value`: `alt((map(string, Value::String), map(number, Value::Number),
map(boolean, Value::Bool), collection))`.  The fuel pays for each recursive
re-entry of `value`; every such re-entry consumes at least one character, so
`input.length + 1` fuel (as supplied by `parse`) never runs out. -/
def value : Nat → Parser Value
  | 0 => fun _ => none
  | n + 1 =>
    altP (mapP string Value.string)
      (altP (mapP number Value.number)
        (altP (mapP boolean Value.bool)
          (collectionOf (value n))))

/-- `fn collection` at a given fuel. -/
def collection (n : Nat) : Parser Value := collectionOf (value n)

/-- `fn array` at a given fuel. -/
def array (n : Nat) : Parser (List Value) := arrayOf (value n)

/-- `fn object` at a given fuel. -/
def object (n : Nat) : Parser (List (Input × Value)) := objectOf (value n)

/-- `fn parse`: `terminated(collection, preceded(opt(newline), eof))(&input)`.
The preceding `nom_indent::indent(..).expect(..)` call of the source discards
its result and is not modelled (see the header note). -/
def parse (input : Input) : Option (Value × Input) :=
  terminated (collection (input.length + 1)) (preceded (optP (charP ('\n'))) eofP) input

/-- `true` exactly for the `Object` / `Array` variants. -/
def Value.isCollection : Value → Bool
  | Value.object _ => true
  | Value.array _ => true
  | _ => false

/-- C1: the claim says a dedent to an indentation width that was never pushed
(levels 0/4/8 followed by a 2-space line) is a syntax error.  The code has no
indentation stack (its own comment reads `TODO: Handle indentation properly`):
it parses the document successfully, absorbing the leading spaces of the
8-space and 2-space lines into the keys of the innermost object. -/
theorem parse_partial_dedent_accepted :
    parse (("a:\n    b:\n        c: 1\n  d: 2\n").data) =
      some (Value.object [(("a").data, Value.object [(("b").data, Value.object
        [(("    c").data, Value.number (F64.finite (Dec.mk 1 1))),
         (("  d").data, Value.number (F64.finite (Dec.mk 2 1)))])])], []) := rfl

/-- C2: the claim (and the repository's own `nested_then_unnested` test) says
the shallower `top_level` line ends the nested object and is bound in the
root.  The code instead keeps consuming: `top_level` is bound inside `obj`. -/
theorem parse_dedent_key_swallowed :
    parse (("key_1: 123\nobj:\n    nested: 456\ntop_level: 789\n").data) =
      some (Value.object [(("key_1").data, Value.number (F64.finite (Dec.mk 123 1))),
        (("obj").data, Value.object [(("nested").data, Value.number (F64.finite (Dec.mk 456 1))),
          (("top_level").data, Value.number (F64.finite (Dec.mk 789 1)))])], []) := rfl

/-- C3: the document `key_1: 123\nobj:\n    nested: 456\n` parses to the
object binding `key_1` to `Number(123)` and `obj` to the nested object
binding `nested` to `Number(456)`, with the whole input consumed. -/
theorem parse_nested_example :
    parse (("key_1: 123\nobj:\n    nested: 456\n").data) =
      some (Value.object [(("key_1").data, Value.number (F64.finite (Dec.mk 123 1))),
        (("obj").data, Value.object [(("nested").data, Value.number (F64.finite (Dec.mk 456 1)))])], []) := rfl

/-- C4: the claim says a deeper-indented line that does not follow a bare
`key:` entry is a syntax error.  The code accepts it, treating the leading
spaces as part of the key of a further entry of the same object. -/
theorem parse_deeper_line_accepted :
    parse (("key_1: 1\n    deeper: 2\n").data) =
      some (Value.object [(("key_1").data, Value.number (F64.finite (Dec.mk 1 1))),
        (("    deeper").data, Value.number (F64.finite (Dec.mk 2 1)))], []) := rfl

/-- C5: the claim says a nested block indented 2 spaces parses the same way
as one indented 4 spaces.  The code hard-codes the separator
`tag(":\n    ")` (exactly four spaces): the 2-space document is a syntax
error while the 4-space document parses. -/
theorem parse_two_space_indent_rejected :
    parse (("obj:\n  nested: 456\n").data) = none ∧
    parse (("obj:\n    nested: 456\n").data) =
      some (Value.object [(("obj").data,
        Value.object [(("nested").data, Value.number (F64.finite (Dec.mk 456 1)))])], []) :=
  And.intro rfl rfl

/-- C6: the claim describes a general double-quoted form plus a single-quoted
form.  The code's string lexer is the stub `tag("a string!")`: it rejects the
double-quoted body `hello!`, rejects a single-quoted literal (character 39 is
the single quote), and accepts exactly the body `a string!`. -/
theorem string_stub_behavior :
    string (("\"hello!\"").data) = none ∧
    string (Char.ofNat 39 :: (("abc").data ++ [Char.ofNat 39])) = none ∧
    string (("\"a string!\"").data) = some (("a string!").data, []) :=
  And.intro rfl (And.intro rfl rfl)

/-- C7: the claim says the number lexer has no exponent syntax.  The code
uses `nom::number::complete::double`, which accepts `1e5` in full (the
source's own comment reads `TODO: double supports scientific notation ...
Let's write our own f64 parser.`).  The second half of the claim does hold:
`3.1.4` is consumed only up to `3.1`, and the leftover `.4` makes the
enclosing parse fail. -/
theorem number_accepts_exponent :
    number (("1e5").data) = some (F64.finite (Dec.mk 100000 1), []) ∧
    number (("3.1.4").data) = some (F64.finite (Dec.mk 31 10), ((".4").data)) ∧
    parse (("key_1: 3.1.4").data) = none :=
  And.intro rfl (And.intro rfl rfl)

/-- The trailer `preceded(opt(newline), eof)` of `fn parse` succeeds exactly
on the empty remainder and on a single newline. -/
lemma trailer_cases (rest : Input) :
    ((rest = [] ∨ rest = [('\n')]) ∧
        preceded (optP (charP ('\n'))) eofP rest = some ((), [])) ∨
      (¬(rest = [] ∨ rest = [('\n')]) ∧
        preceded (optP (charP ('\n'))) eofP rest = none) := by
  match rest with
  | [] => exact Or.inl (And.intro (Or.inl rfl) rfl)
  | c :: t =>
    by_cases hc : c = '\n'
    · subst hc
      match t with
      | [] => exact Or.inl (And.intro (Or.inr rfl) rfl)
      | d :: t2 =>
        refine Or.inr (And.intro ?_ rfl)
        intro h
        rcases h with h | h <;> simp at h
    · refine Or.inr (And.intro ?_ ?_)
      · intro h
        rcases h with h | h
        · simp at h
        · rw [List.cons.injEq] at h
          exact hc h.1
      · simp [preceded, mapP, pairP, optP, charP, eofP, hc]

/-- Inversion for `mapP`. -/
lemma mapP_eq_some (p : Parser α) (f : α → β) (input : Input) (b : β) (r : Input)
    (h : mapP p f input = some (b, r)) : ∃ a, p input = some (a, r) ∧ b = f a := by
  unfold mapP at h
  cases hp : p input with
  | none => rw [hp] at h; cases h
  | some x =>
    obtain ⟨a, r0⟩ := x
    rw [hp] at h
    rw [Option.some.injEq, Prod.mk.injEq] at h
    obtain ⟨hb, hr⟩ := h
    subst hr
    exact ⟨a, rfl, hb.symm⟩

/-- Inversion for `altP`. -/
lemma altP_eq_some (p q : Parser α) (input : Input) (x : α × Input)
    (h : altP p q input = some x) :
    p input = some x ∨ (p input = none ∧ q input = some x) := by
  unfold altP at h
  cases hp : p input with
  | none => rw [hp] at h; exact Or.inr (And.intro rfl h)
  | some y => rw [hp] at h; exact Or.inl h

/-- Whatever `fn collection` returns is an `Object` or an `Array` value. -/
lemma collectionOf_isCollection (val : Parser Value) (input : Input) (v : Value) (r : Input)
    (h : collectionOf val input = some (v, r)) : Value.isCollection v = true := by
  unfold collectionOf at h
  rcases altP_eq_some _ _ _ _ h with h1 | ⟨-, h1⟩ <;>
    obtain ⟨a, -, rfl⟩ := mapP_eq_some _ _ _ _ _ h1 <;> rfl

/-- Shape of `terminated(p, preceded(opt(newline), eof))`. -/
lemma terminated_trailer (p : Parser Value) (input : Input) (v : Value) (r : Input) :
    terminated p (preceded (optP (charP ('\n'))) eofP) input = some (v, r) ↔
      r = [] ∧ ∃ rest, p input = some (v, rest) ∧ (rest = [] ∨ rest = [('\n')]) := by
  cases hp : p input with
  | none => simp [terminated, mapP, pairP, hp]
  | some a =>
    obtain ⟨v0, rest⟩ := a
    rcases trailer_cases rest with ⟨hgood, ht⟩ | ⟨hbad, ht⟩
    · simp only [terminated, mapP, pairP, hp, ht, Option.some.injEq, Prod.mk.injEq]
      constructor
      · rintro ⟨rfl, rfl⟩
        exact ⟨rfl, rest, ⟨rfl, rfl⟩, hgood⟩
      · rintro ⟨rfl, rest2, ⟨rfl, rfl⟩, -⟩
        exact ⟨rfl, rfl⟩
    · simp only [terminated, mapP, pairP, hp, ht, Option.some.injEq, Prod.mk.injEq]
      constructor
      · intro h
        exact Option.noConfusion h
      · rintro ⟨rfl, rest2, ⟨rfl, rfl⟩, hP⟩
        exact absurd hP hbad

/-- C8: `parse` succeeds exactly when `collection` parses the document from
position `0` leaving at most a single trailing newline; on success the whole
input is consumed (the remainder is empty) and the root value is a collection
(never a bare scalar). -/
theorem parse_whole_document (input : Input) (v : Value) (r : Input) :
    parse input = some (v, r) ↔
      r = [] ∧ Value.isCollection v = true ∧
        ∃ rest, collection (input.length + 1) input = some (v, rest) ∧
          (rest = [] ∨ rest = [('\n')]) := by
  have base := terminated_trailer (collection (input.length + 1)) input v r
  unfold parse
  rw [base]
  constructor
  · rintro ⟨rfl, rest, hc, hrest⟩
    exact ⟨rfl, collectionOf_isCollection (value (input.length + 1)) input v rest hc,
      rest, hc, hrest⟩
  · rintro ⟨rfl, -, rest, hc, hrest⟩
    exact ⟨rfl, rest, hc, hrest⟩

/-- Closed instance of the C8 theorem at the document `a: 1\n`. -/
theorem parse_whole_document_witness :
    Value.isCollection (Value.object [(("a").data, Value.number (F64.finite (Dec.mk 1 1)))]) = true :=
  ((parse_whole_document (("a: 1\n").data)
      (Value.object [(("a").data, Value.number (F64.finite (Dec.mk 1 1)))]) []).mp rfl).2.1

/-- C9: the claim says every document mixing `- ` lines and `key:` lines at
one indentation level fails.  The claim's own example does fail, but the
document `foo:\n    - 1\n- 2\n` mixes a key line and a `- ` line at level 0
and parses: the column-0 line `- 2` is absorbed into the nested array. -/
theorem parse_mixed_lines_accepted :
    parse (("- 1\nfoo: 2\n").data) = none ∧
    parse (("foo:\n    - 1\n- 2\n").data) =
      some (Value.object [(("foo").data,
        Value.array [Value.number (F64.finite (Dec.mk 1 1)), Value.number (F64.finite (Dec.mk 2 1))])], []) :=
  And.intro rfl rfl

end Ooml
